import Mathlib

/-!
Verification of the vending-machine purchase service
(`app/services/purchase_service.py`).

The service is embedded shallowly:
* `_is_valid_denomination_amount` — the denomination validator (modulo chain
  over the denominations sorted in descending order);
* `_can_make_change` — wrapper accepting non-positive change;
* `purchase` — the purchase transaction; the SQLAlchemy lookup result is
  modelled as an `Option Item`, the in-place ORM mutation as the first
  component of the returned pair (the item state after the call), and the
  raised `ValueError`s as an `Except` error;
* `change_breakdown` — the greedy change decomposition; the Python dict
  (insertion-ordered) is modelled as an association list, with the final
  remainder exposed by the loop (`breakdownLoop`) and discarded by the
  public function, exactly as in the source.

The denomination configuration (`settings.SUPPORTED_DENOMINATIONS`, a list of
positive integers per the data model) is not under `src/`; every function
takes the denomination list as an explicit parameter.  Python `%` and `//` on
a positive divisor agree with Lean's `Int` `%` (emod) and `/` (ediv).
-/

namespace VendingMachine

/-- Python `sorted(denominations, reverse=True)`. -/
def sortDesc (l : List Int) : List Int := l.insertionSort (· ≥ ·)

/-- `_is_valid_denomination_amount` from `purchase_service.py`:
reject `amount <= 0`, then fold `remaining = remaining % denom` over the
denominations sorted descending and test the final remainder for 0. -/
def _is_valid_denomination_amount (denoms : List Int) (amount : Int) : Bool :=
  if amount ≤ 0 then false
  else
    let denominations := sortDesc denoms
    let remaining := denominations.foldl (fun r d => r % d) amount
    remaining == 0

/-- `_can_make_change` from `purchase_service.py`:
`_is_valid_denomination_amount(change) if change > 0 else True`. -/
def _can_make_change (denoms : List Int) (change : Int) : Bool :=
  if change > 0 then _is_valid_denomination_amount denoms change else true

/-- The slot linked to an item (only the field the purchase touches). -/
structure Slot where
  current_item_count : Int
  deriving DecidableEq

/-- The item record supplied by the persistence layer. -/
structure Item where
  name : String
  price : Int
  quantity : Int
  slot : Option Slot
  deriving DecidableEq

/-- The five `ValueError` conditions raised by `purchase`;
`insufficient_cash` carries the extra arguments `(item.price, cash_inserted)`
attached in the source. -/
inductive PurchaseError where
  | invalid_denomination
  | item_not_found
  | out_of_stock
  | insufficient_cash (price : Int) (cash_inserted : Int)
  | cannot_make_change
  deriving DecidableEq

/-- The dict returned by a successful `purchase`. -/
structure PurchaseOutcome where
  item : String
  price : Int
  cash_inserted : Int
  change_returned : Int
  remaining_quantity : Int
  message : String
  deriving DecidableEq

/-- `purchase` from `purchase_service.py`.  The first component of the result
is the state of the looked-up item after the call (unchanged on every error
path, mutated in the success path); the second is the raised error or the
returned dict. -/
def purchase (denoms : List Int) (item? : Option Item) (cash_inserted : Int) :
    Option Item × Except PurchaseError PurchaseOutcome :=
  if !(_is_valid_denomination_amount denoms cash_inserted) then
    (item?, .error .invalid_denomination)
  else
    match item? with
    | none => (none, .error .item_not_found)
    | some item =>
      if item.quantity ≤ 0 then (some item, .error .out_of_stock)
      else if cash_inserted < item.price then
        (some item, .error (.insufficient_cash item.price cash_inserted))
      else
        let change := cash_inserted - item.price
        if !(_can_make_change denoms change) then
          (some item, .error .cannot_make_change)
        else
          let item' : Item :=
            { item with
              quantity := item.quantity - 1,
              slot := item.slot.map
                (fun s => { s with current_item_count := s.current_item_count - 1 }) }
          (some item',
            .ok { item := item'.name,
                  price := item'.price,
                  cash_inserted := cash_inserted,
                  change_returned := change,
                  remaining_quantity := item'.quantity,
                  message := "Purchase successful" })

/-- The record returned by `change_breakdown` (`{"change": ..., "denominations": ...}`). -/
structure Breakdown where
  change : Int
  denominations : List (String × Int)
  deriving DecidableEq

/-- The loop of `change_breakdown`: walk the denominations (already sorted
descending), break when `remaining <= 0`, record `(d, remaining // d)` when
the count is positive and subtract `count * d`.  Returns the recorded pairs
together with the final remainder (which the source drops). -/
def breakdownLoop : List Int → Int → List (Int × Int) × Int
  | [], remaining => ([], remaining)
  | d :: ds, remaining =>
    if remaining ≤ 0 then ([], remaining)
    else
      let count := remaining / d
      if count > 0 then
        let rest := breakdownLoop ds (remaining - count * d)
        ((d, count) :: rest.1, rest.2)
      else breakdownLoop ds remaining

/-- `change_breakdown` from `purchase_service.py`: the dict keys are
`str(d)`, in descending denomination order. -/
def change_breakdown (denoms : List Int) (change : Int) : Breakdown :=
  let denominations := sortDesc denoms
  let result := breakdownLoop denominations change
  { change := change,
    denominations := result.1.map (fun p => (toString p.1, p.2)) }

/-- C1: the validator returns false on every amount ≤ 0; on a positive amount
it returns true exactly when folding `remaining % denom` over the
denominations sorted descending ends at remainder 0; and on the set
{1,2,5,10} it accepts 18 and rejects 0 and -5. -/
theorem C1_denomination_validator_spec :
    (∀ (denoms : List Int) (amount : Int), amount ≤ 0 →
      _is_valid_denomination_amount denoms amount = false) ∧
    (∀ (denoms : List Int) (amount : Int), 0 < amount →
      (_is_valid_denomination_amount denoms amount = true ↔
        (sortDesc denoms).foldl (fun r d => r % d) amount = 0)) ∧
    _is_valid_denomination_amount [1, 2, 5, 10] 18 = true ∧
    _is_valid_denomination_amount [1, 2, 5, 10] 0 = false ∧
    _is_valid_denomination_amount [1, 2, 5, 10] (-5) = false := by
  refine ⟨?_, ?_, by decide, by decide, by decide⟩
  · intro denoms amount h
    simp [_is_valid_denomination_amount, h]
  · intro denoms amount h
    simp [_is_valid_denomination_amount, not_le.mpr h]

/-- C1 witness: the positive-amount characterisation applied at the set
{1,2,5,10} and amount 18. -/
theorem C1_witness :
    _is_valid_denomination_amount [1, 2, 5, 10] 18 = true ↔
      (sortDesc [1, 2, 5, 10]).foldl (fun r d => r % d) 18 = 0 :=
  C1_denomination_validator_spec.2.1 [1, 2, 5, 10] 18 (by decide)

/-- C9: `_can_make_change` accepts every non-positive change (in particular 0),
the validator itself rejects 0, and a purchase paid with exactly the item's
price never raises cannot_make_change. -/
theorem C9_exact_payment :
    (∀ (denoms : List Int) (change : Int), change ≤ 0 →
      _can_make_change denoms change = true) ∧
    (∀ denoms : List Int, _is_valid_denomination_amount denoms 0 = false) ∧
    (∀ (denoms : List Int) (item : Item),
      (purchase denoms (some item) item.price).2 ≠
        Except.error PurchaseError.cannot_make_change) := by
  refine ⟨?_, ?_, ?_⟩
  · intro denoms change h
    simp [_can_make_change, not_lt.mpr h]
  · intro denoms
    simp [_is_valid_denomination_amount]
  · intro denoms item
    cases hv : _is_valid_denomination_amount denoms item.price with
    | false => simp [purchase, hv]
    | true =>
      by_cases hq : item.quantity ≤ 0
      · simp [purchase, hv, hq]
      · have hc : ¬ item.price < item.price := lt_irrefl _
        have hm : _can_make_change denoms 0 = true := by
          simp [_can_make_change]
        simp [purchase, hv, hq, hc, hm]

/-- C9 witness: change -3 with denominations {1,2} is accepted by
`_can_make_change`. -/
theorem C9_witness :
    (-3 : Int) ≤ 0 ∧ _can_make_change [1, 2] (-3) = true :=
  ⟨by decide, C9_exact_payment.1 [1, 2] (-3) (by decide)⟩

/-- The loop of `change_breakdown` stops immediately on a non-positive
remainder. -/
theorem breakdownLoop_nonpos (ds : List Int) (r : Int) (h : r ≤ 0) :
    breakdownLoop ds r = ([], r) := by
  cases ds with
  | nil => rfl
  | cons d ds => simp [breakdownLoop, h]

/-- C10: for every non-positive amount and every denomination set,
`change_breakdown` returns normally with the original amount and an empty
mapping. -/
theorem C10_change_breakdown_nonpositive (denoms : List Int) (amount : Int)
    (h : amount ≤ 0) :
    change_breakdown denoms amount = { change := amount, denominations := [] } := by
  simp [change_breakdown, breakdownLoop_nonpos _ _ h]

/-- C10 witness: amount -5 with denominations {1,2,5,10}. -/
theorem C10_witness :
    (-5 : Int) ≤ 0 ∧
      change_breakdown [1, 2, 5, 10] (-5) = { change := -5, denominations := [] } :=
  ⟨by decide, C10_change_breakdown_nonpositive [1, 2, 5, 10] (-5) (by decide)⟩

/-- C2 counterexample: with denominations {1,2,5,10}, an in-stock item of
price 10 and cash 10, steps 1–3 pass and cash ≥ price; the change
10 − 10 = 0 fails the validator, yet the purchase succeeds instead of
raising cannot_make_change. -/
theorem C2_counterexample :
    _is_valid_denomination_amount [1, 2, 5, 10] (10 - 10) = false ∧
    (purchase [1, 2, 5, 10]
        (some { name := "Soda", price := 10, quantity := 1, slot := none }) 10).2 =
      Except.ok { item := "Soda", price := 10, cash_inserted := 10,
                  change_returned := 0, remaining_quantity := 0,
                  message := "Purchase successful" } := by
  constructor
  · decide
  · rfl

/-- C2 (amended): under steps 1–3 passing and cash ≥ price, the purchase
raises cannot_make_change iff `_can_make_change` on the change is false,
i.e. iff the change is positive and fails the validator; change 0 (exact
payment) never raises. -/
theorem C2_cannot_make_change_iff (denoms : List Int) (item : Item) (cash : Int)
    (h1 : _is_valid_denomination_amount denoms cash = true)
    (h2 : 0 < item.quantity) (h3 : item.price ≤ cash) :
    ((purchase denoms (some item) cash).2 =
        Except.error PurchaseError.cannot_make_change ↔
      _can_make_change denoms (cash - item.price) = false) := by
  have hq : ¬ item.quantity ≤ 0 := not_le.mpr h2
  have hc : ¬ cash < item.price := not_lt.mpr h3
  cases hm : _can_make_change denoms (cash - item.price) with
  | false => simp [purchase, h1, hq, hc, hm]
  | true => simp [purchase, h1, hq, hc, hm]

/-- C2 witness: denominations {10,5}, an item of price 12 in stock, cash 15;
the change 3 fails the validator and the purchase indeed raises
cannot_make_change. -/
theorem C2_witness :
    _is_valid_denomination_amount [10, 5] 15 = true ∧
    (0 : Int) < 1 ∧ (12 : Int) ≤ 15 ∧
    ((purchase [10, 5]
        (some { name := "Chips", price := 12, quantity := 1, slot := none }) 15).2 =
        Except.error PurchaseError.cannot_make_change ↔
      _can_make_change [10, 5] (15 - 12) = false) :=
  ⟨by decide, by decide, by decide,
    C2_cannot_make_change_iff [10, 5]
      { name := "Chips", price := 12, quantity := 1, slot := none } 15
      (by decide) (by decide) (by decide)⟩

/-- C7: whenever the purchase raises any error, the looked-up item state is
returned unchanged; in particular an in-catalogue item with quantity 0 and a
valid cash amount yields out_of_stock with no mutation. -/
theorem C7_purchase_atomic_on_failure :
    (∀ (denoms : List Int) (item? : Option Item) (cash : Int) (e : PurchaseError),
      (purchase denoms item? cash).2 = Except.error e →
        (purchase denoms item? cash).1 = item?) ∧
    (∀ (denoms : List Int) (item : Item) (cash : Int),
      item.quantity = 0 → _is_valid_denomination_amount denoms cash = true →
      purchase denoms (some item) cash =
        (some item, Except.error PurchaseError.out_of_stock)) := by
  constructor
  · intro denoms item? cash e h
    cases hv : _is_valid_denomination_amount denoms cash with
    | false => simp [purchase, hv]
    | true =>
      cases item? with
      | none => simp [purchase, hv]
      | some item =>
        by_cases hq : item.quantity ≤ 0
        · simp [purchase, hv, hq]
        · by_cases hc : cash < item.price
          · simp [purchase, hv, hq, hc]
          · cases hm : _can_make_change denoms (cash - item.price) with
            | false => simp [purchase, hv, hq, hc, hm]
            | true => simp [purchase, hv, hq, hc, hm] at h
  · intro denoms item cash h0 hv
    simp [purchase, hv, le_of_eq h0]

/-- C7 witness: denominations {1}, an item with quantity 0 and cash 7 give
out_of_stock with the item unchanged. -/
theorem C7_witness :
    ({ name := "Water", price := 5, quantity := 0, slot := none } : Item).quantity = 0 ∧
    _is_valid_denomination_amount [1] 7 = true ∧
    purchase [1] (some { name := "Water", price := 5, quantity := 0, slot := none }) 7 =
      (some { name := "Water", price := 5, quantity := 0, slot := none },
        Except.error PurchaseError.out_of_stock) :=
  ⟨rfl, by decide,
    C7_purchase_atomic_on_failure.2 [1]
      { name := "Water", price := 5, quantity := 0, slot := none } 7 rfl (by decide)⟩

/-- C8: a successful purchase decrements the item quantity by exactly 1,
decrements the linked slot's current_item_count by exactly 1 when a slot is
linked (and leaves the slot absent when none is linked), and returns the
record with the item name, price, cash inserted, change = cash − price,
the post-decrement quantity and the message "Purchase successful". -/
theorem C8_successful_purchase (denoms : List Int) (item : Item) (cash : Int)
    (item' : Item) (out : PurchaseOutcome)
    (h : purchase denoms (some item) cash = (some item', Except.ok out)) :
    item'.quantity = item.quantity - 1 ∧
    (item.slot = none → item'.slot = none) ∧
    (∀ s : Slot, item.slot = some s →
      item'.slot = some { current_item_count := s.current_item_count - 1 }) ∧
    out = { item := item.name, price := item.price, cash_inserted := cash,
            change_returned := cash - item.price,
            remaining_quantity := item.quantity - 1,
            message := "Purchase successful" } := by
  cases hv : _is_valid_denomination_amount denoms cash with
  | false => simp [purchase, hv] at h
  | true =>
    by_cases hq : item.quantity ≤ 0
    · simp [purchase, hv, hq] at h
    · by_cases hc : cash < item.price
      · simp [purchase, hv, hq, hc] at h
      · cases hm : _can_make_change denoms (cash - item.price) with
        | false => simp [purchase, hv, hq, hc, hm] at h
        | true =>
          simp only [purchase, hv, hq, hc, hm, Bool.not_true, Bool.false_eq_true,
            if_false, ite_false, ite_true, Prod.mk.injEq, Option.some.injEq,
            Except.ok.injEq] at h
          obtain ⟨h1, h2⟩ := h
          subst h1
          subst h2
          refine ⟨rfl, ?_, ?_, rfl⟩
          · intro hs
            simp [hs]
          · intro s hs
            simp [hs]

/-- C8 witness: the spec's example — price 10, quantity 1, cash 15 over
denominations {1,2,5,10} give change 5, remaining quantity 0 and the message
"Purchase successful". -/
theorem C8_witness :
    purchase [1, 2, 5, 10]
        (some { name := "Soda", price := 10, quantity := 1, slot := none }) 15 =
      (some { name := "Soda", price := 10, quantity := 0, slot := none },
        Except.ok { item := "Soda", price := 10, cash_inserted := 15,
                    change_returned := 5, remaining_quantity := 0,
                    message := "Purchase successful" }) ∧
    ({ name := "Soda", price := 10, quantity := 0, slot := none } : Item).quantity =
        ({ name := "Soda", price := 10, quantity := 1, slot := none } : Item).quantity - 1 ∧
    ({ item := "Soda", price := 10, cash_inserted := 15, change_returned := 5,
       remaining_quantity := 0, message := "Purchase successful" } : PurchaseOutcome) =
      { item := "Soda", price := 10, cash_inserted := 15,
        change_returned := 15 - 10, remaining_quantity := 1 - 1,
        message := "Purchase successful" } :=
  ⟨rfl,
    (C8_successful_purchase [1, 2, 5, 10]
      { name := "Soda", price := 10, quantity := 1, slot := none } 15
      { name := "Soda", price := 10, quantity := 0, slot := none }
      { item := "Soda", price := 10, cash_inserted := 15, change_returned := 5,
        remaining_quantity := 0, message := "Purchase successful" } rfl).1,
    (C8_successful_purchase [1, 2, 5, 10]
      { name := "Soda", price := 10, quantity := 1, slot := none } 15
      { name := "Soda", price := 10, quantity := 0, slot := none }
      { item := "Soda", price := 10, cash_inserted := 15, change_returned := 5,
        remaining_quantity := 0, message := "Purchase successful" } rfl).2.2.2⟩

/-- C6: the five failure conditions of `purchase`, each characterised by the
checks that precede it in the source order — invalid_denomination first, then
item_not_found, then out_of_stock (quantity ≤ 0), then insufficient_cash
(cash < price, carrying the price and the cash given), then
cannot_make_change. -/
theorem C6_error_conditions (denoms : List Int) (item? : Option Item) (cash : Int) :
    ((purchase denoms item? cash).2 = Except.error PurchaseError.invalid_denomination ↔
      _is_valid_denomination_amount denoms cash = false) ∧
    ((purchase denoms item? cash).2 = Except.error PurchaseError.item_not_found ↔
      _is_valid_denomination_amount denoms cash = true ∧ item? = none) ∧
    ((purchase denoms item? cash).2 = Except.error PurchaseError.out_of_stock ↔
      _is_valid_denomination_amount denoms cash = true ∧
        ∃ item, item? = some item ∧ item.quantity ≤ 0) ∧
    (∀ p c : Int,
      (purchase denoms item? cash).2 =
          Except.error (PurchaseError.insufficient_cash p c) ↔
        _is_valid_denomination_amount denoms cash = true ∧
          ∃ item, item? = some item ∧ 0 < item.quantity ∧ cash < item.price ∧
            item.price = p ∧ cash = c) ∧
    ((purchase denoms item? cash).2 = Except.error PurchaseError.cannot_make_change ↔
      _is_valid_denomination_amount denoms cash = true ∧
        ∃ item, item? = some item ∧ 0 < item.quantity ∧ item.price ≤ cash ∧
          _can_make_change denoms (cash - item.price) = false) := by
  cases hv : _is_valid_denomination_amount denoms cash with
  | false => simp [purchase, hv]
  | true =>
    cases item? with
    | none => simp [purchase, hv]
    | some item =>
      by_cases hq : item.quantity ≤ 0
      · have hq' : ¬ 0 < item.quantity := not_lt.mpr hq
        simp [purchase, hv, hq, hq']
      · have hq' : 0 < item.quantity := not_le.mp hq
        by_cases hc : cash < item.price
        · have hc' : ¬ item.price ≤ cash := not_le.mpr hc
          simp [purchase, hv, hq, hq', hc, hc']
        · have hc' : item.price ≤ cash := not_lt.mp hc
          cases hm : _can_make_change denoms (cash - item.price) with
          | false => simp [purchase, hv, hq, hq', hc, hc', hm]
          | true => simp [purchase, hv, hq, hq', hc, hc', hm]

/-- An amount is a sum of denomination values with repetition (the empty sum
for 0). -/
def Representable (denoms : List Int) (n : Int) : Prop :=
  ∃ parts : List Int, (∀ x ∈ parts, x ∈ denoms) ∧ parts.sum = n

/-- `sortDesc` permutes its input. -/
theorem sortDesc_perm (l : List Int) : (sortDesc l).Perm l :=
  List.perm_insertionSort _ l

/-- Soundness of the modulo chain: over positive divisors, if folding
`r % d` from a non-negative start ends at 0, the start is a sum of the
divisors with repetition. -/
theorem foldl_emod_representable (l : List Int) :
    ∀ r : Int, (∀ d ∈ l, 0 < d) → 0 ≤ r →
      l.foldl (fun a d => a % d) r = 0 → Representable l r := by
  induction l with
  | nil =>
    intro r _ _ h
    exact ⟨[], by simp, by simpa using h.symm⟩
  | cons d ds ih =>
    intro r hpos hr h
    have hd : 0 < d := hpos d (List.mem_cons_self d ds)
    have hrd : 0 ≤ r % d := Int.emod_nonneg r (ne_of_gt hd)
    have h' : ds.foldl (fun a d => a % d) (r % d) = 0 := by simpa using h
    obtain ⟨parts, hmem, hsum⟩ :=
      ih (r % d) (fun x hx => hpos x (List.mem_cons_of_mem d hx)) hrd h'
    refine ⟨List.replicate (r / d).toNat d ++ parts, ?_, ?_⟩
    · intro x hx
      rcases List.mem_append.mp hx with hx | hx
      · rw [List.eq_of_mem_replicate hx]
        exact List.mem_cons_self d ds
      · exact List.mem_cons_of_mem d (hmem x hx)
    · have hq : 0 ≤ r / d := Int.ediv_nonneg hr (le_of_lt hd)
      rw [List.sum_append, hsum, List.sum_replicate, nsmul_eq_mul,
        Int.toNat_of_nonneg hq, mul_comm]
      exact Int.ediv_add_emod r d

/-- Every amount accepted by the validator over positive denominations is a
sum of denominations with repetition. -/
theorem valid_representable (denoms : List Int) (amount : Int)
    (hpos : ∀ d ∈ denoms, 0 < d)
    (h : _is_valid_denomination_amount denoms amount = true) :
    Representable denoms amount := by
  unfold _is_valid_denomination_amount at h
  by_cases h0 : amount ≤ 0
  · rw [if_pos h0] at h
    exact absurd h (by simp)
  · rw [if_neg h0] at h
    have hfold : (sortDesc denoms).foldl (fun r d => r % d) amount = 0 := by
      simpa using h
    have hpos' : ∀ d ∈ sortDesc denoms, 0 < d := fun d hd =>
      hpos d ((sortDesc_perm denoms).mem_iff.mp hd)
    obtain ⟨parts, hmem, hsum⟩ :=
      foldl_emod_representable (sortDesc denoms) amount hpos'
        (le_of_lt (lt_of_not_le h0)) hfold
    exact ⟨parts, fun x hx => (sortDesc_perm denoms).mem_iff.mp (hmem x hx), hsum⟩

/-- C3: over positive denominations, every successful purchase accepted both
a cash amount and a change amount that are sums of denomination values with
repetition (change 0 being the empty sum). -/
theorem C3_purchase_amounts_representable (denoms : List Int) (item? : Option Item)
    (cash : Int) (item' : Item) (out : PurchaseOutcome)
    (hpos : ∀ d ∈ denoms, 0 < d)
    (h : purchase denoms item? cash = (some item', Except.ok out)) :
    Representable denoms cash ∧ Representable denoms out.change_returned := by
  cases hv : _is_valid_denomination_amount denoms cash with
  | false => simp [purchase, hv] at h
  | true =>
    cases item? with
    | none => simp [purchase, hv] at h
    | some item =>
      by_cases hq : item.quantity ≤ 0
      · simp [purchase, hv, hq] at h
      · by_cases hc : cash < item.price
        · simp [purchase, hv, hq, hc] at h
        · cases hm : _can_make_change denoms (cash - item.price) with
          | false => simp [purchase, hv, hq, hc, hm] at h
          | true =>
            simp only [purchase, hv, hq, hc, hm, Bool.not_true, Bool.false_eq_true,
              if_false, ite_false, ite_true, Prod.mk.injEq, Option.some.injEq,
              Except.ok.injEq] at h
            obtain ⟨-, h2⟩ := h
            subst h2
            refine ⟨valid_representable denoms cash hpos hv, ?_⟩
            have hch : (cash - item.price = 0) ∨
                _is_valid_denomination_amount denoms (cash - item.price) = true := by
              unfold _can_make_change at hm
              by_cases hpos' : cash - item.price > 0
              · rw [if_pos hpos'] at hm
                exact Or.inr hm
              · have : item.price ≤ cash := not_lt.mp hc
                left
                omega
            rcases hch with hch | hch
            · exact ⟨[], by simp, by simpa using hch.symm⟩
            · simpa using valid_representable denoms (cash - item.price) hpos hch

/-- C3 witness: denominations {1,2,5,10}, item of price 10 in stock, cash 15;
15 and the change 5 are sums of denominations. -/
theorem C3_witness :
    (∀ d ∈ ([1, 2, 5, 10] : List Int), 0 < d) ∧
    Representable [1, 2, 5, 10] 15 ∧
    Representable [1, 2, 5, 10]
      ({ item := "Soda", price := 10, cash_inserted := 15, change_returned := 5,
         remaining_quantity := 0, message := "Purchase successful" } :
        PurchaseOutcome).change_returned :=
  ⟨by decide,
    C3_purchase_amounts_representable [1, 2, 5, 10]
      (some { name := "Soda", price := 10, quantity := 1, slot := none }) 15
      { name := "Soda", price := 10, quantity := 0, slot := none }
      { item := "Soda", price := 10, cash_inserted := 15, change_returned := 5,
        remaining_quantity := 0, message := "Purchase successful" }
      (by decide) rfl⟩

/-- Unfolding of the loop on a positive remainder and a positive count. -/
theorem breakdownLoop_cons_pos (d : Int) (ds : List Int) (r : Int)
    (h0 : ¬ r ≤ 0) (hcnt : 0 < r / d) :
    breakdownLoop (d :: ds) r =
      ((d, r / d) :: (breakdownLoop ds (r - r / d * d)).1,
        (breakdownLoop ds (r - r / d * d)).2) := by
  simp [breakdownLoop, h0, hcnt]

/-- Unfolding of the loop on a positive remainder and count 0. -/
theorem breakdownLoop_cons_zero (d : Int) (ds : List Int) (r : Int)
    (h0 : ¬ r ≤ 0) (hcnt : ¬ 0 < r / d) :
    breakdownLoop (d :: ds) r = breakdownLoop ds r := by
  simp [breakdownLoop, h0, hcnt]

/-- Every count recorded by the loop is positive. -/
theorem breakdownLoop_counts_pos (ds : List Int) :
    ∀ (r : Int) (p : Int × Int), p ∈ (breakdownLoop ds r).1 → 0 < p.2 := by
  induction ds with
  | nil =>
    intro r p hp
    simp [breakdownLoop] at hp
  | cons d ds ih =>
    intro r p hp
    by_cases h0 : r ≤ 0
    · simp [breakdownLoop_nonpos _ _ h0] at hp
    · by_cases hcnt : 0 < r / d
      · rw [breakdownLoop_cons_pos d ds r h0 hcnt] at hp
        rcases List.mem_cons.mp hp with hp | hp
        · rw [hp]
          exact hcnt
        · exact ih _ p hp
      · rw [breakdownLoop_cons_zero d ds r h0 hcnt] at hp
        exact ih r p hp

/-- The denominations recorded by the loop form a subsequence of the walked
list (hence follow its order). -/
theorem breakdownLoop_fst_sublist (ds : List Int) :
    ∀ r : Int, ((breakdownLoop ds r).1.map Prod.fst).Sublist ds := by
  induction ds with
  | nil =>
    intro r
    simp [breakdownLoop]
  | cons d ds ih =>
    intro r
    by_cases h0 : r ≤ 0
    · simp [breakdownLoop_nonpos _ _ h0]
    · by_cases hcnt : 0 < r / d
      · rw [breakdownLoop_cons_pos d ds r h0 hcnt]
        exact List.Sublist.cons₂ d (ih _)
      · rw [breakdownLoop_cons_zero d ds r h0 hcnt]
        exact List.Sublist.cons d (ih r)

/-- C4: `change_breakdown` carries the original amount, records only positive
counts, lists them in descending denomination order (a subsequence of the
denominations sorted descending), and on the set {10,5,2,1} decomposes 18 as
one 10, one 5, one 2 and one 1. -/
theorem C4_change_breakdown_spec :
    (∀ (denoms : List Int) (amount : Int),
      (change_breakdown denoms amount).change = amount) ∧
    (∀ (denoms : List Int) (amount : Int),
      ∀ p ∈ (change_breakdown denoms amount).denominations, 0 < p.2) ∧
    (∀ (denoms : List Int) (amount : Int),
      ((change_breakdown denoms amount).denominations.map Prod.fst).Sublist
        ((sortDesc denoms).map (fun d : Int => toString d))) ∧
    change_breakdown [10, 5, 2, 1] 18 =
      { change := 18,
        denominations := [("10", 1), ("5", 1), ("2", 1), ("1", 1)] } := by
  refine ⟨fun denoms amount => rfl, ?_, ?_, by decide⟩
  · intro denoms amount p hp
    simp only [change_breakdown, List.mem_map] at hp
    obtain ⟨q, hq, rfl⟩ := hp
    exact breakdownLoop_counts_pos _ _ q hq
  · intro denoms amount
    have h :=
      (breakdownLoop_fst_sublist (sortDesc denoms) amount).map
        (fun d : Int => toString d)
    simpa [change_breakdown, List.map_map, Function.comp] using h

/-- C4 witness: the pair ("10", 1) appears in the breakdown of 18 and its
count is positive. -/
theorem C4_witness :
    (("10", (1 : Int)) ∈ (change_breakdown [10, 5, 2, 1] 18).denominations) ∧
      (0 : Int) < (("10", (1 : Int))).2 :=
  ⟨by decide, C4_change_breakdown_spec.2.1 [10, 5, 2, 1] 18 ("10", 1) (by decide)⟩

/-- The value reconstituted from a list of (denomination, count) pairs. -/
def pairsTotal (pairs : List (Int × Int)) : Int :=
  (pairs.map (fun p => p.1 * p.2)).sum

/-- The loop accounts exactly for the amount minus its final remainder. -/
theorem breakdownLoop_total (ds : List Int) :
    ∀ r : Int, pairsTotal (breakdownLoop ds r).1 = r - (breakdownLoop ds r).2 := by
  induction ds with
  | nil =>
    intro r
    simp [breakdownLoop, pairsTotal]
  | cons d ds ih =>
    intro r
    by_cases h0 : r ≤ 0
    · simp [breakdownLoop_nonpos _ _ h0, pairsTotal]
    · by_cases hcnt : 0 < r / d
      · rw [breakdownLoop_cons_pos d ds r h0 hcnt]
        simp only [pairsTotal, List.map_cons, List.sum_cons]
        have hrec := ih (r - r / d * d)
        simp only [pairsTotal] at hrec
        rw [hrec]
        ring
      · rw [breakdownLoop_cons_zero d ds r h0 hcnt]
        exact ih r

/-- C5: `change_breakdown` always returns a record (never an error); the sum
of denomination × count over the returned pairs equals the amount minus the
final leftover of the loop; and on the set {5,2} with amount 3 the leftover
is 1 and the returned record silently drops it. -/
theorem C5_leftover_silently_dropped :
    (∀ (denoms : List Int) (amount : Int), 0 ≤ amount →
      change_breakdown denoms amount =
        { change := amount,
          denominations :=
            (breakdownLoop (sortDesc denoms) amount).1.map
              (fun p => (toString p.1, p.2)) } ∧
      pairsTotal (breakdownLoop (sortDesc denoms) amount).1 =
        amount - (breakdownLoop (sortDesc denoms) amount).2) ∧
    (breakdownLoop (sortDesc [5, 2]) 3).2 = 1 ∧
    change_breakdown [5, 2] 3 = { change := 3, denominations := [("2", 1)] } := by
  refine ⟨?_, by decide, by decide⟩
  intro denoms amount _
  exact ⟨rfl, breakdownLoop_total _ amount⟩

/-- C5 witness: the breakdown of 3 over {5,2} instantiating the general
statement. -/
theorem C5_witness :
    (0 : Int) ≤ 3 ∧
      (change_breakdown [5, 2] 3 =
        { change := 3,
          denominations :=
            (breakdownLoop (sortDesc [5, 2]) 3).1.map
              (fun p => (toString p.1, p.2)) } ∧
      pairsTotal (breakdownLoop (sortDesc [5, 2]) 3).1 =
        3 - (breakdownLoop (sortDesc [5, 2]) 3).2) :=
  ⟨by decide, C5_leftover_silently_dropped.1 [5, 2] 3 (by decide)⟩

end VendingMachine
